import Mathlib

/-!
Shallow embedding of the watch-detect-dedupe-heartbeat-catchup subsystem of
lsst-sqre/rubintv_production, together with theorems settling the spec claims.

The embedding follows the Python source:
* `src/python/lsst/rubintv/production/watchers.py` (FileWatcher, ButlerWatcher)
* `src/python/lsst/rubintv/production/rubinTv.py` (MetadataServer shard
  merging, Uploader.uploadHeartbeat, Heartbeater)
* `src/python/lsst/rubintv/production/catchupService.py`
  (RubinTvBackgroundService)

Machine-level details that do not bear on the claims (logging, the butler,
actual file IO, GCS transport) are abstracted: file contents become explicit
data, wall-clock times become integers, and the outcome of a fallible upload
becomes an explicit boolean input.
-/

namespace RubinTV

/-! ## FileWatcher (watchers.py, lines 43-150)

DataId marker files written by the ButlerWatcher embed the exposure id in
their filename; `getMostRecentExpRecord` globs them, sorts the filenames in
reverse order and takes the first (watchers.py lines 104-113).  Since the
glob pattern fixes the instrument and data product, the filenames differ only
in the embedded exposure id, so a file is modelled by that id (a `Nat`) and
the reverse lexicographic sort by the numeric descending sort. -/

/-- Models `sorted(files, reverse=True)` (watchers.py line 108). -/
def sortDescending (files : List Nat) : List Nat :=
  List.insertionSort (fun a b => b ≤ a) files

/-- Models `FileWatcher.getMostRecentExpRecord` (watchers.py lines 93-123):
take the first file of the reverse-sorted listing, parse its exposure id, and
return `none` when there are no files or the id equals `previousExpId`;
otherwise return the record (identified here by its exposure id). -/
def getMostRecentExpRecord (files : List Nat) (previousExpId : Option Nat) :
    Option Nat :=
  match sortDescending files with
  | [] => none
  | expId :: _ => if previousExpId = some expId then none else some expId

/-- Observable events of one `FileWatcher.run` loop iteration. -/
inductive WatcherEvent where
  | heartbeat
  | sleepCadence
  | callbackCall (expId : Nat)
deriving DecidableEq, Repr

/-- One iteration of the `while True` body of `FileWatcher.run`
(watchers.py lines 135-150) in log-and-continue mode (`doRaise=False`),
for a watcher configured with a heartbeater.  `fails expId = true` means the
callback raises on the record with that exposure id; the exception is caught
by the `except` clause and logged by `raiseIf`, skipping the post-callback
heartbeat.  Returns the new `lastFound` and the events of the iteration.
Note that `lastFound` is assigned (line 144) before the callback is invoked
(line 145). -/
def watcherStep (fails : Nat → Bool) (lastFound : Option Nat)
    (files : List Nat) : Option Nat × List WatcherEvent :=
  match getMostRecentExpRecord files lastFound with
  | none => (lastFound, [WatcherEvent.heartbeat, WatcherEvent.sleepCadence])
  | some expId =>
    if fails expId then
      (some expId, [WatcherEvent.callbackCall expId])
    else
      (some expId, [WatcherEvent.callbackCall expId, WatcherEvent.heartbeat])

/-- The event trace of `FileWatcher.run` over a finite prefix of poll cycles,
each cycle seeing a snapshot of the dataId files on disk. -/
def runWatcher (fails : Nat → Bool) (lastFound : Option Nat) :
    List (List Nat) → List WatcherEvent
  | [] => []
  | files :: rest =>
    let step := watcherStep fails lastFound files
    step.2 ++ runWatcher fails step.1 rest

/-- The exposure ids passed to the callback, in order, within a trace. -/
def invocations (trace : List WatcherEvent) : List Nat :=
  trace.filterMap (fun e =>
    match e with
    | WatcherEvent.callbackCall expId => some expId
    | _ => none)

/-- DataId marker files are only ever added (the ButlerWatcher writes them
and nothing deletes them), so successive snapshots grow. -/
def accumulating (snapshots : List (List Nat)) : Prop :=
  List.Chain' (fun s t => ∀ x ∈ s, x ∈ t) snapshots

/-! ## Heartbeater (rubinTv.py, lines 611-664 and 787-836)

Wall-clock times are modelled as integers.  Whether a GCS upload succeeds is
an environment input (`uploadSucceeds`), matching
`Uploader.uploadHeartbeat`'s boolean return (rubinTv.py lines 659-664). -/

/-- The JSON document built by `Uploader.uploadHeartbeat`
(rubinTv.py lines 644-649); the `errors` field is always the empty dict and
is omitted. -/
structure HeartbeatRecord where
  channel : String
  currTime : Int
  nextExpected : Int
deriving DecidableEq, Repr

/-- Models `Uploader.uploadHeartbeat` (rubinTv.py lines 624-664): builds the
heartbeat record with `nextExpected = currTime + flatlinePeriod`.  The actual
blob upload may fail; the caller supplies that outcome separately. -/
def uploadHeartbeat (channel : String) (flatlinePeriod : Int) (currTime : Int) :
    HeartbeatRecord :=
  { channel := channel, currTime := currTime
    nextExpected := currTime + flatlinePeriod }

/-- The state of a `Heartbeater` (rubinTv.py lines 807-813);
`lastUpload` is initialised to `-1`. -/
structure Heartbeater where
  handle : String
  uploadPeriod : Int
  flatlinePeriod : Int
  lastUpload : Int
deriving DecidableEq, Repr

/-- Python truthiness of the `customFlatlinePeriod` argument: `None` and `0`
are falsy, every other number is truthy (this drives both
`not customFlatlinePeriod` on rubinTv.py line 830 and the third disjunct on
line 834). -/
def pyTruthy (x : Option Int) : Bool :=
  match x with
  | none => false
  | some d => decide (d ≠ 0)

/-- Models `Heartbeater.beat` (rubinTv.py lines 815-836).  Returns the new
state together with `some record` when an upload was attempted (with the
record that was sent) and `none` when the beat was suppressed.
`uploadSucceeds` is the outcome `Uploader.uploadHeartbeat` would return for
the attempt; `lastUpload` is advanced only on success (line 836). -/
def beat (hb : Heartbeater) (now : Int) (ensure : Bool)
    (customFlatlinePeriod : Option Int) (uploadSucceeds : Bool) :
    Heartbeater × Option HeartbeatRecord :=
  let forecast :=
    if pyTruthy customFlatlinePeriod then
      customFlatlinePeriod.getD hb.flatlinePeriod
    else hb.flatlinePeriod
  let elapsed := now - hb.lastUpload
  if elapsed ≥ hb.uploadPeriod ∨ ensure = true
      ∨ pyTruthy customFlatlinePeriod = true then
    if uploadSucceeds then
      ({ hb with lastUpload := now },
        some (uploadHeartbeat hb.handle forecast now))
    else
      (hb, some (uploadHeartbeat hb.handle forecast now))
  else
    (hb, none)

/-! ## MetadataServer shard merging (rubinTv.py, lines 530-577)

A canonical (sidecar) record and a shard are JSON objects
`{sequenceKey: {fieldName: value}}`; they are modelled as association lists
(JSON objects have no duplicate keys, which proofs assume explicitly where
needed).  Values are an arbitrary type.  Python's in-place `dict.update` is
`pyDictUpdate`: keys already present keep their position and receive the new
value, new keys are appended in the incoming order. -/

/-- A JSON object `{fieldName: value}`. -/
abbrev FieldMap (α : Type) : Type := List (String × α)

/-- A canonical record or a shard: `{sequenceKey: {fieldName: value}}`. -/
abbrev Record (α : Type) : Type := List (String × FieldMap α)

/-- Python `d.update(u)` on dicts: existing keys are overwritten in place,
new keys are appended in iteration order of `u`. -/
def pyDictUpdate {β : Type} (d u : List (String × β)) : List (String × β) :=
  d.map (fun kv =>
      match List.lookup kv.1 u with
      | some v => (kv.1, v)
      | none => kv)
    ++ u.filter (fun kv => (List.lookup kv.1 d).isNone)

/-- Replace the field map stored at `row`, modelling the in-place mutation
`data[row].update(...)` of rubinTv.py line 563. -/
def setRow {α : Type} (data : Record α) (row : String) (f : FieldMap α) :
    Record α :=
  data.map (fun kv => if kv.1 = row then (kv.1, f) else kv)

/-- One iteration of the `for row in shard` loop of
`MetadataServer.mergeShardsAndUpload` (rubinTv.py lines 561-565): if the row
is already in the canonical data its field map is updated with
`data[row].update(shard[row])`, otherwise `data.update({row: shard[row]})`
adds the row. -/
def mergeShardRow {α : Type} (data : Record α) (rowKV : String × FieldMap α) :
    Record α :=
  match List.lookup rowKV.1 data with
  | some existing => setRow data rowKV.1 (pyDictUpdate existing rowKV.2)
  | none => pyDictUpdate data [rowKV]

/-- The per-shard merge loop of `MetadataServer.mergeShardsAndUpload`
(rubinTv.py lines 560-565), iterating `mergeShardRow` over the rows of the
shard. -/
def mergeShard {α : Type} (data shard : Record α) : Record α :=
  shard.foldl mergeShardRow data

/-- Merging a sequence of shards into a canonical record, in the order the
shard files are processed (the sorted directory listing,
rubinTv.py line 539). -/
def mergeShards {α : Type} (data : Record α) (shards : List (Record α)) :
    Record α :=
  shards.foldl mergeShard data

/-- Looking up one field of one sequence key in a record. -/
def fieldLookup {α : Type} (data : Record α) (row f : String) : Option α :=
  (List.lookup row data).bind (fun m => List.lookup f m)

/-- The value the last shard carrying field `f` of sequence key `row`
assigns to it, if any shard does. -/
def lastShardField {α : Type} (shards : List (Record α)) (row f : String) :
    Option α :=
  shards.reverse.findSome? (fun sh => (List.lookup row sh).bind (List.lookup f))

/-- The keys of an association list. -/
def alKeys {β : Type} (l : List (String × β)) : List String :=
  l.map Prod.fst

/-! ## The file-system events of `mergeShardsAndUpload`
(rubinTv.py, lines 530-577)

For the crash-safety claim what matters is the order of the file-system
operations the function performs.  A shard file is identified by a unique
token `name` (the uuid part of the filename) and the `dayObs` parsed from the
filename (line 548); its parsed JSON content is a `Record`. -/

/-- One shard file in the shards directory. -/
structure ShardFile (α : Type) where
  name : Nat
  dayObs : Nat
  content : Record α

/-- File-system operations performed by `mergeShardsAndUpload`. -/
inductive MergeEvent where
  /-- Load the main sidecar file for a dayObs, or start from the empty dict
  when it is absent or empty (rubinTv.py lines 552-556). -/
  | loadMainFile (dayObs : Nat)
  /-- Read and parse a shard file (lines 558-559). -/
  | readShardFile (name : Nat)
  /-- Delete a shard file (line 566). -/
  | removeShardFile (name : Nat)
  /-- Write the merged data to the main sidecar file (lines 568-569). -/
  | writeMainFile (dayObs : Nat)
  /-- Upload a touched main file (lines 573-576). -/
  | uploadMainFile (dayObs : Nat)
deriving DecidableEq, Repr

/-- The file-system events of the per-shard body of the merge loop
(rubinTv.py lines 544-571), in program order: the main file is loaded, the
shard is read and merged in memory, the shard file is removed, and then the
main file is written. -/
def shardPassEvents {α : Type} (sf : ShardFile α) : List MergeEvent :=
  [MergeEvent.loadMainFile sf.dayObs,
   MergeEvent.readShardFile sf.name,
   MergeEvent.removeShardFile sf.name,
   MergeEvent.writeMainFile sf.dayObs]

/-- The full event trace of one `mergeShardsAndUpload` call over the sorted
shard-file listing: the per-shard passes in order, then one upload per
touched main file (rubinTv.py lines 573-576). -/
def mergeShardsAndUploadTrace {α : Type} (shardFiles : List (ShardFile α)) :
    List MergeEvent :=
  (shardFiles.flatMap shardPassEvents)
    ++ ((shardFiles.map (fun sf => sf.dayObs)).dedup).map MergeEvent.uploadMainFile

/-- The property claimed by the spec for `mergeShardsAndUpload`: a shard file
is deleted only after the corresponding canonical (main) file write, i.e.
every write of the shard's main file precedes every deletion of the shard. -/
def shardDeletedOnlyAfterMainWrite {α : Type}
    (shardFiles : List (ShardFile α)) (name dayObs : Nat) : Prop :=
  ∀ (i j : Nat),
    (mergeShardsAndUploadTrace shardFiles)[i]? = some (MergeEvent.writeMainFile dayObs) →
    (mergeShardsAndUploadTrace shardFiles)[j]? = some (MergeEvent.removeShardFile name) →
    i < j

/-! ## RubinTvBackgroundService (catchupService.py)

`raiseIf` lives in `lsst.rubintv.production.utils`, which is not part of the
sources here; it is modelled from the spec. -/

/-- Modelled from the spec: `raiseIf(doRaise, e, log)` from
`lsst.rubintv.production.utils` (the module is not among the sources; only
its callers are).  Spec section 7: "Propagation policy is globally
configurable per process: a 'raise' mode converts swallowed errors into
process-terminating exceptions for debugging; default production mode logs
and continues."  So it re-raises `e` when `doRaise` is true and otherwise
logs it and returns normally. -/
def raiseIf {ε : Type} (doRaise : Bool) (e : ε) : Except ε Unit :=
  if doRaise then Except.error e else Except.ok ()

/-- The four reconciliation routines iterated by
`RubinTvBackgroundService.runCatchup` (catchupService.py lines 256-259), in
source order. -/
inductive CatchupComponent where
  | catchupMetadata
  | catchupIsrRunner
  | catchupMonitor
  | catchupMountTorques
deriving DecidableEq, Repr

/-- The list `[self.catchupMetadata, self.catchupIsrRunner,
self.catchupMonitor, self.catchupMountTorques]` of catchupService.py
lines 256-259. -/
def catchupComponents : List CatchupComponent :=
  [CatchupComponent.catchupMetadata,
   CatchupComponent.catchupIsrRunner,
   CatchupComponent.catchupMonitor,
   CatchupComponent.catchupMountTorques]

/-- The `for component in [...]` loop of `runCatchup`
(catchupService.py lines 256-263), over the remaining components. -/
def runCatchupLoop (doRaise : Bool) (raises : CatchupComponent → Bool) :
    List CatchupComponent → List CatchupComponent × Option CatchupComponent
  | [] => ([], none)
  | c :: rest =>
    -- component.__call__() runs; `raises c` says whether it raises
    -- (catchupService.py lines 260-261)
    if raises c then
      -- the except clause calls raiseIf (line 263); in raise mode the
      -- exception propagates out of runCatchup, aborting the loop
      match raiseIf doRaise c with
      | Except.error e => ([c], some e)
      | Except.ok () =>
        let res := runCatchupLoop doRaise raises rest
        (c :: res.1, res.2)
    else
      let res := runCatchupLoop doRaise raises rest
      (c :: res.1, res.2)

/-- Models `RubinTvBackgroundService.runCatchup`
(catchupService.py lines 247-266): runs the four routines in order, each in
its own try/except.  Returns the routines that were invoked and the
exception escaping the call, if any. -/
def runCatchup (doRaise : Bool) (raises : CatchupComponent → Bool) :
    List CatchupComponent × Option CatchupComponent :=
  runCatchupLoop doRaise raises catchupComponents

/-- The actions of the `try` body of `runEndOfDay`
(catchupService.py lines 288-313), in source order. -/
inductive EndOfDayStep where
  | animateDay
  | uploadMovie
  | deleteAllSkyPngs
  | cleanupAllSkyIntermediates
deriving DecidableEq, Repr

/-- Source order of the finalization body. -/
def endOfDaySteps : List EndOfDayStep :=
  [EndOfDayStep.animateDay,
   EndOfDayStep.uploadMovie,
   EndOfDayStep.deleteAllSkyPngs,
   EndOfDayStep.cleanupAllSkyIntermediates]

/-- Run the finalization body, which raises at step `failAt` (if given),
skipping the remaining steps.  Returns the steps performed and the body
outcome. -/
def endOfDayBody (failAt : Option EndOfDayStep) :
    List EndOfDayStep → List EndOfDayStep × Except EndOfDayStep Unit
  | [] => ([], Except.ok ())
  | s :: rest =>
    if failAt = some s then ([s], Except.error s)
    else
      let res := endOfDayBody failAt rest
      (s :: res.1, res.2)

/-- The result of one `runEndOfDay` call. -/
structure EndOfDayResult where
  /-- The finalization steps that ran. -/
  performed : List EndOfDayStep
  /-- The new `self.dayObs` after the call. -/
  newDayObs : Nat
  /-- The exception propagating out of the call, if any. -/
  escaping : Option EndOfDayStep
deriving DecidableEq, Repr

/-- Models `RubinTvBackgroundService.runEndOfDay`
(catchupService.py lines 280-319): `try` runs the finalization body;
`except` hands any exception to `raiseIf` (line 316), which re-raises it
only in `doRaise` mode; the `finally` clause (lines 318-319) sets
`self.dayObs = getCurrentDayObs_int()` on every path, including when the
except clause re-raised. -/
def runEndOfDay (currentDayObs : Nat) (failAt : Option EndOfDayStep)
    (doRaise : Bool) : EndOfDayResult :=
  let body := endOfDayBody failAt endOfDaySteps
  let handled : Except EndOfDayStep Unit :=
    match body.2 with
    | Except.ok () => Except.ok ()
    | Except.error e => raiseIf doRaise e
  -- the finally clause runs last on every path
  { performed := body.1
    newDayObs := currentDayObs
    escaping := match handled with
      | Except.ok () => none
      | Except.error e => some e }

/-- A minimal dataId as built by
`RubinTvBackgroundService.getMissingQuickLookIds`
(catchupService.py line 127). -/
structure DataId where
  day_obs : Nat
  seq_num : Nat
  detector : Nat
deriving DecidableEq, Repr

/-- Models `RubinTvBackgroundService.getMissingQuickLookIds`
(catchupService.py lines 108-127).  `allSeqNums` is what
`getSeqNumsForDayObs` returns for the day (every sequence number existing
upstream); `foundSeqNums` are the sequence numbers of the exposure records
that already have a `quickLookExp` dataset.  The code keeps the sequence
numbers not yet found (line 126) and wraps each in a dataId with
`detector: 0` (line 127). -/
def getMissingQuickLookIds (dayObs : Nat) (allSeqNums foundSeqNums : List Nat) :
    List DataId :=
  let toMakeSeqNums := allSeqNums.filter (fun s => decide (s ∉ foundSeqNums))
  toMakeSeqNums.map (fun s => { day_obs := dayObs, seq_num := s, detector := 0 })

/-! ## ButlerWatcher cold start (watchers.py, lines 251-287)

`ButlerWatcher.run` keeps, per data product, a `lastWrittenIds` entry.  In
the steady state (line 287) the entry holds `expRecord.id`, a Python `int`;
at cold start (lines 256-263) it is set to whatever
`FileWatcher.getMostRecentExpRecord()` returned, which is `None` or a
`DimensionRecord` object — not an `int`.  The poll comparison on line 271 is
`expRecord.id != lastWrittenIds[product]`.  To capture the dynamic typing,
the stored value is a sum of the three Python possibilities, and the
comparison follows Python equality: an `int` equals another `int` with the
same value and is never equal to `None` or to a `DimensionRecord`. -/

/-- The exposure record advertised by a dataId marker file or returned by the
butler query; only its `id` matters here. -/
structure ExpRecord where
  id : Nat
deriving DecidableEq, Repr

/-- The Python value held in `lastWrittenIds[product]`. -/
inductive LastWrittenEntry where
  /-- `None` (no marker file found at cold start). -/
  | pyNone
  /-- A `DimensionRecord` object (what the cold-start scan on line 262
  actually stores). -/
  | pyRecord (r : ExpRecord)
  /-- An `int` exposure id (what the steady-state update on line 287
  stores). -/
  | pyId (n : Nat)
deriving DecidableEq, Repr

/-- Python `expRecord.id != lastWrittenIds[product]` (watchers.py line 271):
an `int` compares unequal to `None` and to any `DimensionRecord` object. -/
def pyIdNe (n : Nat) (v : LastWrittenEntry) : Bool :=
  match v with
  | LastWrittenEntry.pyId m => decide (n ≠ m)
  | _ => true

/-- The cold-start initialisation of `lastWrittenIds[product]`
(watchers.py lines 256-263): the value stored is the return of
`fileWatcher.getMostRecentExpRecord()` itself — the record object when a
marker file exists, `None` otherwise. -/
def coldStartEntry (markerRecord : Option ExpRecord) : LastWrittenEntry :=
  match markerRecord with
  | none => LastWrittenEntry.pyNone
  | some r => LastWrittenEntry.pyRecord r

/-- Whether the first poll cycle after start writes a new dataId marker file
for a product (watchers.py lines 268-286): the product is in `found` iff the
latest upstream record exists and `expRecord.id != lastWrittenIds[product]`,
and every product in `found` gets `writeDataIdFile` called for it
(line 286). -/
def firstCycleWritesMarker (entry : LastWrittenEntry)
    (latestUpstream : Option ExpRecord) : Bool :=
  match latestUpstream with
  | none => false
  | some r => pyIdNe r.id entry

/-! ## Theorems -/

/-- C4: ButlerWatcher cold-start recovery fails: with a marker file on disk
advertising exposure id 100 and the most recent upstream record also having
id 100, the first poll cycle after restart still writes a new marker file,
because the cold-start scan (watchers.py line 262) stores the record object
itself in `lastWrittenIds` while the comparison (line 271) checks
`expRecord.id != lastWrittenIds[product]`, an `int`-versus-`DimensionRecord`
comparison that is always unequal.  The steady-state entry (line 287) stores
the `int` id, for which the same comparison would correctly say "nothing
new", as the second conjunct shows — so the cold-start scan fails to achieve
what it is there for. -/
theorem butlerWatcher_coldStart_rewrites_marker :
    firstCycleWritesMarker (coldStartEntry (some { id := 100 }))
        (some { id := 100 }) = true ∧
      pyIdNe 100 (LastWrittenEntry.pyId 100) = false := by
  decide

/-- C5 counterexample: the claim "if one routine raises, all remaining
routines still execute in that cycle" fails when the service runs with
`doRaise=True`: with the second routine (`catchupIsrRunner`) raising, the
loop is aborted by `raiseIf` and `catchupMonitor` and `catchupMountTorques`
are never invoked. -/
theorem runCatchup_doRaise_aborts_remaining_cex :
    (runCatchup true
          (fun c => decide (c = CatchupComponent.catchupIsrRunner))).1
        = [CatchupComponent.catchupMetadata,
           CatchupComponent.catchupIsrRunner] ∧
      CatchupComponent.catchupMonitor ∉
        (runCatchup true
          (fun c => decide (c = CatchupComponent.catchupIsrRunner))).1 ∧
      CatchupComponent.catchupMountTorques ∉
        (runCatchup true
          (fun c => decide (c = CatchupComponent.catchupIsrRunner))).1 := by
  decide

/-- Auxiliary: in log-and-continue mode the loop of `runCatchup` invokes
every component of the list, whatever raises. -/
theorem runCatchupLoop_false_all (raises : CatchupComponent → Bool) :
    ∀ l : List CatchupComponent,
      (runCatchupLoop false raises l).1 = l ∧
        (runCatchupLoop false raises l).2 = none := by
  intro l
  induction l with
  | nil => exact ⟨rfl, rfl⟩
  | cons c rest ih =>
    by_cases h : raises c = true
    · simp [runCatchupLoop, h, raiseIf, ih.1, ih.2]
    · simp [runCatchupLoop, h, raiseIf, ih.1, ih.2]

/-- C5 (amended): in log-and-continue mode (`doRaise=False`, the production
default), every `runCatchup` cycle invokes all four reconciliation routines
in source order no matter which of them raise, and no exception escapes the
call. -/
theorem runCatchup_isolated_when_logging (raises : CatchupComponent → Bool) :
    (runCatchup false raises).1 = catchupComponents ∧
      (runCatchup false raises).2 = none :=
  runCatchupLoop_false_all raises catchupComponents

/-- C6: `runEndOfDay` always leaves `self.dayObs` equal to the current
day-obs value: the update sits in the `finally` clause
(catchupService.py lines 318-319), so it runs when the finalization body
succeeds, when it raises and the error is logged, and even when `doRaise`
makes the except clause re-raise. -/
theorem runEndOfDay_advances_dayObs (currentDayObs : Nat)
    (failAt : Option EndOfDayStep) (doRaise : Bool) :
    (runEndOfDay currentDayObs failAt doRaise).newDayObs = currentDayObs := by
  rfl

/-- C7 counterexample: the claim "a `beat(customFlatlinePeriod=D)` call
always attempts an upload" fails for the supplied period `D = 0`: Python
evaluates `0` as falsy in both uses of the argument
(rubinTv.py lines 830 and 834), so a beat 1 second after the previous
upload with `customFlatlinePeriod=0` is suppressed. -/
theorem beat_customFlatlinePeriod_zero_cex :
    (beat { handle := "ch", uploadPeriod := 30, flatlinePeriod := 120,
            lastUpload := 10 } 11 false (some 0) true).2 = none := by
  decide

/-- C7 (amended): for every heartbeater state and every non-zero supplied
custom flatline period `D`, `beat(customFlatlinePeriod=D)` attempts an
upload declaring `nextExpected = now + D`, however little time has elapsed
since the previous upload. -/
theorem beat_custom_flatline_forces_upload (hb : Heartbeater) (now : Int)
    (ensure : Bool) (uploadSucceeds : Bool) (D : Int) (hD : D ≠ 0) :
    (beat hb now ensure (some D) uploadSucceeds).2 =
      some { channel := hb.handle, currTime := now,
             nextExpected := now + D } := by
  cases uploadSucceeds <;>
    simp [beat, pyTruthy, uploadHeartbeat, hD]

/-- Witness for C7 (amended): a concrete forced beat 1 second after the
previous upload, with uploadPeriod 30 and custom period 600. -/
theorem beat_custom_flatline_forces_upload_witness :
    (600 : Int) ≠ 0 ∧
      (beat { handle := "ch", uploadPeriod := 30, flatlinePeriod := 120,
              lastUpload := 10 } 11 false (some 600) true).2 =
        some { channel := "ch", currTime := 11, nextExpected := 611 } :=
  ⟨by decide,
    beat_custom_flatline_forces_upload
      { handle := "ch", uploadPeriod := 30, flatlinePeriod := 120,
        lastUpload := 10 } 11 false true 600 (by decide)⟩

/-- C8: when the heartbeat upload fails, `beat` leaves the whole heartbeater
state — in particular `lastUpload` — unchanged
(rubinTv.py lines 835-836 advance it only on a `True` return), so if the
failed attempt was due (`elapsed >= uploadPeriod`) then any later `beat`,
even one coming sooner than a full `uploadPeriod` after the failure,
attempts the upload again. -/
theorem heartbeater_no_advance_on_failure (hb : Heartbeater)
    (now now' : Int) (ensure : Bool) (custom : Option Int)
    (hdue : hb.uploadPeriod ≤ now - hb.lastUpload) (hle : now ≤ now') :
    (beat hb now ensure custom false).1 = hb ∧
      ((beat (beat hb now ensure custom false).1 now' false none true).2).isSome
        = true := by
  have hst : (beat hb now ensure custom false).1 = hb := by
    by_cases h : (now - hb.lastUpload ≥ hb.uploadPeriod ∨ ensure = true
        ∨ pyTruthy custom = true)
    · simp [beat, h]
    · simp [beat, h]
  refine ⟨hst, ?_⟩
  rw [hst]
  have hcond : now' - hb.lastUpload ≥ hb.uploadPeriod := by omega
  simp [beat, hcond]

/-- Witness for C8: a failed due beat at t=50 (lastUpload -1, period 30)
followed by a successful attempt at t=51. -/
theorem heartbeater_no_advance_on_failure_witness :
    (30 : Int) ≤ 50 - (-1) ∧ (50 : Int) ≤ 51 ∧
      ((beat { handle := "ch", uploadPeriod := 30, flatlinePeriod := 120,
               lastUpload := -1 } 50 false none false).1 =
          { handle := "ch", uploadPeriod := 30, flatlinePeriod := 120,
            lastUpload := -1 } ∧
        ((beat (beat { handle := "ch", uploadPeriod := 30,
                       flatlinePeriod := 120, lastUpload := -1 }
                  50 false none false).1 51 false none true).2).isSome
          = true) :=
  ⟨by decide, by decide,
    heartbeater_no_advance_on_failure
      { handle := "ch", uploadPeriod := 30, flatlinePeriod := 120,
        lastUpload := -1 } 50 51 false none (by decide) (by decide)⟩

/-- C9: `getMissingQuickLookIds` returns exactly one dataId
`{day_obs, seq_num, detector: 0}` per sequence number that exists upstream
for the day but has no `quickLookExp`, and none for a sequence number that
already has one.  (`getSeqNumsForDayObs` enumerates the day's distinct
sequence numbers, whence the `Nodup` hypothesis.) -/
theorem getMissingQuickLookIds_exact (dayObs : Nat)
    (allSeqNums foundSeqNums : List Nat) (hnd : allSeqNums.Nodup) :
    (∀ did ∈ getMissingQuickLookIds dayObs allSeqNums foundSeqNums,
        did.day_obs = dayObs ∧ did.detector = 0) ∧
      (∀ s : Nat,
        (getMissingQuickLookIds dayObs allSeqNums foundSeqNums).count
            { day_obs := dayObs, seq_num := s, detector := 0 } =
          if s ∈ allSeqNums ∧ s ∉ foundSeqNums then 1 else 0) := by
  constructor
  · intro did hdid
    simp only [getMissingQuickLookIds, List.mem_map] at hdid
    obtain ⟨s, _, rfl⟩ := hdid
    exact ⟨rfl, rfl⟩
  · intro s
    have hinj : Function.Injective
        (fun s => ({ day_obs := dayObs, seq_num := s, detector := 0 } :
          DataId)) := by
      intro a b h
      simpa using h
    simp only [getMissingQuickLookIds]
    rw [show ({ day_obs := dayObs, seq_num := s, detector := 0 } : DataId)
          = (fun s => ({ day_obs := dayObs, seq_num := s, detector := 0 } :
            DataId)) s from rfl,
        List.count_map_of_injective _ _ hinj]
    by_cases hmem : s ∈ allSeqNums
    · by_cases hf : s ∈ foundSeqNums
      · have hnotmem :
            s ∉ allSeqNums.filter (fun t => decide (t ∉ foundSeqNums)) := by
          intro hm
          have := (List.mem_filter.mp hm).2
          simp [hf] at this
        rw [List.count_eq_zero_of_not_mem hnotmem]
        simp [hf]
      · have hfil : s ∈ allSeqNums.filter (fun t => decide (t ∉ foundSeqNums)) :=
          List.mem_filter.mpr ⟨hmem, by simpa using hf⟩
        rw [List.count_eq_one_of_mem (hnd.filter _) hfil]
        simp [hmem, hf]
    · have hnotmem :
          s ∉ allSeqNums.filter (fun t => decide (t ∉ foundSeqNums)) := by
        intro hm
        exact hmem (List.mem_filter.mp hm).1
      rw [List.count_eq_zero_of_not_mem hnotmem]
      simp [hmem]

/-- Witness for C9: the spec's end-to-end scenario, upstream sequence
numbers {1,2,3,4,5} and existing quickLookExps {1,2,4}: exactly the dataIds
for 3 and 5 with detector 0 come back. -/
theorem getMissingQuickLookIds_exact_witness :
    ([1, 2, 3, 4, 5] : List Nat).Nodup ∧
      (getMissingQuickLookIds 20240101 [1, 2, 3, 4, 5] [1, 2, 4]).count
          { day_obs := 20240101, seq_num := 3, detector := 0 } = 1 ∧
      getMissingQuickLookIds 20240101 [1, 2, 3, 4, 5] [1, 2, 4] =
        [{ day_obs := 20240101, seq_num := 3, detector := 0 },
         { day_obs := 20240101, seq_num := 5, detector := 0 }] :=
  ⟨by decide,
   by
     rw [(getMissingQuickLookIds_exact 20240101 [1, 2, 3, 4, 5] [1, 2, 4]
       (by decide)).2 3]
     decide,
   by decide⟩

/-! ### Association-list lemmas for the shard merge -/

/-- A key absent from the keys of an association list has no lookup. -/
theorem lookup_eq_none_of_not_mem_keys {β : Type} {l : List (String × β)}
    {k : String} (h : k ∉ alKeys l) : List.lookup k l = none := by
  induction l with
  | nil => rfl
  | cons kv rest ih =>
    have hk : k ≠ kv.1 := by
      intro he
      exact h (by simp [alKeys, he])
    have hrest : k ∉ alKeys rest := by
      intro hm
      exact h (by simp [alKeys] at hm ⊢; exact Or.inr hm)
    obtain ⟨k0, v0⟩ := kv
    simp only at hk
    simp [List.lookup_cons, beq_eq_false_iff_ne.mpr hk, ih hrest]

/-- Lookup in the overwrite part of `pyDictUpdate`. -/
theorem lookup_pyDictUpdate_mapPart {β : Type} (d u : List (String × β))
    (k : String) :
    List.lookup k (d.map (fun kv =>
        match List.lookup kv.1 u with
        | some v => (kv.1, v)
        | none => kv)) =
      (List.lookup k d).map (fun v => (List.lookup k u).getD v) := by
  induction d with
  | nil => rfl
  | cons kv rest ih =>
    obtain ⟨k0, v0⟩ := kv
    by_cases hk : k = k0
    · subst hk
      cases hu : List.lookup k u <;>
        simp [List.lookup_cons, hu]
    · cases hu : List.lookup k0 u <;>
        simp [List.lookup_cons, beq_eq_false_iff_ne.mpr hk, ih, hu]

/-- Lookup in the new-keys part of `pyDictUpdate`, for a key the original
dict does not have. -/
theorem lookup_pyDictUpdate_filterPart {β : Type} (d u : List (String × β))
    (k : String) (hd : List.lookup k d = none) :
    List.lookup k (u.filter (fun kv => (List.lookup kv.1 d).isNone)) =
      List.lookup k u := by
  induction u with
  | nil => rfl
  | cons kv rest ih =>
    obtain ⟨k1, w⟩ := kv
    by_cases hk : k = k1
    · subst hk
      simp [List.filter_cons, hd, List.lookup_cons]
    · by_cases hp : (List.lookup k1 d).isNone
      · simp [List.filter_cons, hp, List.lookup_cons,
          beq_eq_false_iff_ne.mpr hk, ih]
      · simp [List.filter_cons, hp, List.lookup_cons,
          beq_eq_false_iff_ne.mpr hk, ih]

/-- The dict produced by `pyDictUpdate d u` answers lookups like `u` first
and `d` second — Python dict-update semantics. -/
theorem lookup_pyDictUpdate {β : Type} (d u : List (String × β)) (k : String) :
    List.lookup k (pyDictUpdate d u) =
      match List.lookup k u with
      | some v => some v
      | none => List.lookup k d := by
  unfold pyDictUpdate
  rw [List.lookup_append, lookup_pyDictUpdate_mapPart]
  cases hd : List.lookup k d with
  | some w =>
    cases hu : List.lookup k u <;> simp [hu]
  | none =>
    rw [lookup_pyDictUpdate_filterPart d u k hd]
    cases hu : List.lookup k u <;> simp [hu]

/-- Updating the empty dict yields the update itself. -/
theorem pyDictUpdate_nil {β : Type} (u : List (String × β)) :
    pyDictUpdate [] u = u := by
  unfold pyDictUpdate
  simp

/-- Lookup after `setRow`: the chosen row now stores `f` (when present at
all), other rows are untouched. -/
theorem lookup_setRow {α : Type} (data : Record α) (row : String)
    (f : FieldMap α) (k : String) :
    List.lookup k (setRow data row f) =
      if k = row then (List.lookup k data).map (fun _ => f)
      else List.lookup k data := by
  induction data with
  | nil =>
    by_cases hk : k = row <;> simp [setRow, hk]
  | cons kv rest ih =>
    obtain ⟨k0, m⟩ := kv
    simp only [setRow, List.map_cons] at ih ⊢
    by_cases h0 : k0 = row
    · subst h0
      by_cases hk : k = k0
      · subst hk
        simp [List.lookup_cons]
      · simp [List.lookup_cons, beq_eq_false_iff_ne.mpr hk, hk, ih]
    · by_cases hk : k = k0
      · subst hk
        have hkr : ¬k = row := h0
        simp [List.lookup_cons, h0, hkr]
      · simp [List.lookup_cons, beq_eq_false_iff_ne.mpr hk, h0, ih]

/-- Lookup after one `mergeShardRow` step: the touched row holds the
field-updated map, every other row is unchanged. -/
theorem lookup_mergeShardRow {α : Type} (data : Record α)
    (rowKV : String × FieldMap α) (r : String) :
    List.lookup r (mergeShardRow data rowKV) =
      if r = rowKV.1 then
        some (pyDictUpdate ((List.lookup r data).getD []) rowKV.2)
      else List.lookup r data := by
  obtain ⟨rk, rf⟩ := rowKV
  by_cases hr : r = rk
  · subst hr
    cases hex : List.lookup r data with
    | some ex =>
      simp [mergeShardRow, hex, lookup_setRow]
    | none =>
      simp only [mergeShardRow, hex]
      rw [lookup_pyDictUpdate]
      simp [List.lookup_cons, pyDictUpdate_nil]
  · cases hex : List.lookup rk data with
    | some ex =>
      simp [mergeShardRow, hex, lookup_setRow, hr]
    | none =>
      simp only [mergeShardRow, hex]
      rw [lookup_pyDictUpdate]
      simp [List.lookup_cons, beq_eq_false_iff_ne.mpr hr, hr]

/-- Lookup after merging a whole shard (with the JSON guarantee that the
shard's row keys are distinct): a row the shard carries holds its previous
map updated by the shard's fields, any other row is unchanged. -/
theorem lookup_mergeShard {α : Type} (shard : Record α) :
    ∀ data : Record α, (alKeys shard).Nodup → ∀ r : String,
      List.lookup r (mergeShard data shard) =
        match List.lookup r shard with
        | some sf => some (pyDictUpdate ((List.lookup r data).getD []) sf)
        | none => List.lookup r data := by
  induction shard with
  | nil =>
    intro data _ r
    rfl
  | cons rowKV rest ih =>
    intro data hnd r
    have hnd' : ((rowKV.1 :: alKeys rest) : List String).Nodup := by
      simpa only [alKeys, List.map_cons] using hnd
    have hnotin : rowKV.1 ∉ alKeys rest := (List.nodup_cons.mp hnd').1
    have hrest : (alKeys rest).Nodup := (List.nodup_cons.mp hnd').2
    have hstep : mergeShard data (rowKV :: rest)
        = mergeShard (mergeShardRow data rowKV) rest := rfl
    rw [hstep, ih (mergeShardRow data rowKV) hrest r]
    obtain ⟨rk, rf⟩ := rowKV
    by_cases hr : r = rk
    · subst hr
      have hnone : List.lookup r rest = none :=
        lookup_eq_none_of_not_mem_keys hnotin
      rw [hnone]
      rw [lookup_mergeShardRow]
      simp [List.lookup_cons]
    · have hrow : List.lookup r (mergeShardRow data (rk, rf))
          = List.lookup r data := by
        rw [lookup_mergeShardRow]
        simp [hr]
      rw [hrow]
      cases hrr : List.lookup r rest <;>
        simp [List.lookup_cons, beq_eq_false_iff_ne.mpr hr, hrr]

/-- Field-level view of merging one shard. -/
theorem fieldLookup_mergeShard {α : Type} (data sh : Record α)
    (hnd : (alKeys sh).Nodup) (row f : String) :
    fieldLookup (mergeShard data sh) row f =
      match (List.lookup row sh).bind (List.lookup f) with
      | some v => some v
      | none => fieldLookup data row f := by
  unfold fieldLookup
  rw [lookup_mergeShard sh data hnd row]
  cases hrow : List.lookup row sh with
  | none => rfl
  | some sf =>
    simp only [Option.bind_some, Option.some_bind]
    rw [lookup_pyDictUpdate]
    cases hf : List.lookup f sf with
    | some v => rfl
    | none =>
      cases hdata : List.lookup row data <;> simp [hdata]

/-- Field-level view of merging a sequence of shards: for every sequence
key and every field name, the resulting value is the one assigned by the
last shard that carries that (sequence key, field) pair, falling back to
the prior canonical value when no shard carries it. -/
theorem fieldLookup_mergeShards {α : Type} (shards : List (Record α)) :
    ∀ data : Record α, (∀ sh ∈ shards, (alKeys sh).Nodup) → ∀ row f : String,
      fieldLookup (mergeShards data shards) row f =
        match lastShardField shards row f with
        | some v => some v
        | none => fieldLookup data row f := by
  induction shards with
  | nil =>
    intro data _ row f
    rfl
  | cons sh rest ih =>
    intro data hnd row f
    have h1 : (alKeys sh).Nodup := hnd sh (List.mem_cons_self sh rest)
    have h2 : ∀ s ∈ rest, (alKeys s).Nodup :=
      fun s hs => hnd s (List.mem_cons.mpr (Or.inr hs))
    have hstep : mergeShards data (sh :: rest)
        = mergeShards (mergeShard data sh) rest := rfl
    rw [hstep, ih (mergeShard data sh) h2 row f,
      fieldLookup_mergeShard data sh h1 row f]
    have hlast : lastShardField (sh :: rest) row f =
        match lastShardField rest row f with
        | some v => some v
        | none => (List.lookup row sh).bind (List.lookup f) := by
      unfold lastShardField
      rw [List.reverse_cons, List.findSome?_append]
      cases h : List.findSome?
          (fun sh => (List.lookup row sh).bind (List.lookup f))
          rest.reverse with
      | some v => simp [h, List.findSome?_cons, Option.or]
      | none =>
        simp only [h, Option.none_or, List.findSome?_cons, List.findSome?_nil]
        cases (List.lookup row sh).bind (List.lookup f) <;> rfl
    rw [hlast]
    cases lastShardField rest row f <;>
      cases (List.lookup row sh).bind (List.lookup f) <;> rfl

/-- C1: the merge performed by `mergeShardsAndUpload` is field-level per
sequence key.  For every canonical record and every sequence of shards
(whose row keys are distinct, as JSON objects guarantee), the value of any
(sequence key, field) pair after the merge is the one carried by the last
shard carrying that pair; fields the shards do not carry keep their
canonical value, and a shard with a new sequence key adds that key (its
fields are found even though the canonical record had no such row). -/
theorem mergeShards_field_merge (α : Type) (data : Record α)
    (shards : List (Record α)) (hnd : ∀ sh ∈ shards, (alKeys sh).Nodup)
    (row f : String) :
    fieldLookup (mergeShards data shards) row f =
      match lastShardField shards row f with
      | some v => some v
      | none => fieldLookup data row f :=
  fieldLookup_mergeShards shards data hnd row f

/-- Witness for C1: the spec's concrete scenario — merging the shard
`{7:{x:1}}` and then the shard `{7:{y:2}}` into an empty canonical record
yields `{7:{x:1, y:2}}` (checked both through the field-level theorem and
as a literal equality on the resulting record). -/
theorem mergeShards_field_merge_witness :
    (∀ sh ∈ [[("7", [("x", (1 : Int))])], [("7", [("y", (2 : Int))])]],
        (alKeys sh).Nodup) ∧
      fieldLookup
          (mergeShards ([] : Record Int)
            [[("7", [("x", 1)])], [("7", [("y", 2)])]]) "7" "x" = some 1 ∧
      mergeShards ([] : Record Int)
          [[("7", [("x", 1)])], [("7", [("y", 2)])]] =
        [("7", [("x", 1), ("y", 2)])] :=
  ⟨by decide,
    (mergeShards_field_merge Int []
        [[("7", [("x", 1)])], [("7", [("y", 2)])]] (by decide) "7" "x").trans
      (by decide),
    by decide⟩

/-- C2 counterexample: the spec claims a shard file is deleted only after
the canonical file write; but for the singleton listing holding the shard
file named 0 for dayObs 20221027, the trace of `mergeShardsAndUpload` has
the write of the main file at index 3 and the removal of the shard at
index 2 — `os.remove(shardFile)` (rubinTv.py line 566) runs before the
main-file write (lines 568-569). -/
theorem mergeShardsAndUpload_remove_before_write_cex :
    ¬ shardDeletedOnlyAfterMainWrite
      [({ name := 0, dayObs := 20221027, content := [] } : ShardFile Int)]
      0 20221027 := by
  intro h
  have h32 := h 3 2 rfl rfl
  omega

/-- Positioning of one shard's pass inside the flatMap part of the trace. -/
theorem flatMap_shardPass_indices {α : Type} (shardFiles : List (ShardFile α))
    (sf : ShardFile α) (h : sf ∈ shardFiles) :
    ∃ g i j : Nat, g < i ∧ i < j ∧
      (shardFiles.flatMap shardPassEvents)[g]? =
        some (MergeEvent.readShardFile sf.name) ∧
      (shardFiles.flatMap shardPassEvents)[i]? =
        some (MergeEvent.removeShardFile sf.name) ∧
      (shardFiles.flatMap shardPassEvents)[j]? =
        some (MergeEvent.writeMainFile sf.dayObs) := by
  induction shardFiles with
  | nil => cases h
  | cons x rest ih =>
    rw [List.flatMap_cons]
    rcases List.mem_cons.mp h with heq | hmem
    · subst heq
      refine ⟨1, 2, 3, by omega, by omega, ?_, ?_, ?_⟩
      · rw [List.getElem?_append_left (by simp [shardPassEvents])]
        rfl
      · rw [List.getElem?_append_left (by simp [shardPassEvents])]
        rfl
      · rw [List.getElem?_append_left (by simp [shardPassEvents])]
        rfl
    · obtain ⟨g, i, j, hgi, hij, hg, hi, hj⟩ := ih hmem
      have hlen : (shardPassEvents x).length = 4 := rfl
      refine ⟨4 + g, 4 + i, 4 + j, by omega, by omega, ?_, ?_, ?_⟩
      · rw [List.getElem?_append_right (by omega)]
        simpa [hlen] using hg
      · rw [List.getElem?_append_right (by omega)]
        simpa [hlen] using hi
      · rw [List.getElem?_append_right (by omega)]
        simpa [hlen] using hj

/-- C2 (amended): in every merge pass of `mergeShardsAndUpload`, each shard
file is read, then deleted, and only then is the corresponding canonical
(main) file written — the deletion precedes the canonical write, so a crash
between the deletion and the write loses that shard's data instead of
leaving the shard for the next merge pass. -/
theorem mergeShardsAndUpload_remove_between_read_and_write {α : Type}
    (shardFiles : List (ShardFile α)) (sf : ShardFile α)
    (h : sf ∈ shardFiles) :
    ∃ g i j : Nat, g < i ∧ i < j ∧
      (mergeShardsAndUploadTrace shardFiles)[g]? =
        some (MergeEvent.readShardFile sf.name) ∧
      (mergeShardsAndUploadTrace shardFiles)[i]? =
        some (MergeEvent.removeShardFile sf.name) ∧
      (mergeShardsAndUploadTrace shardFiles)[j]? =
        some (MergeEvent.writeMainFile sf.dayObs) := by
  obtain ⟨g, i, j, hgi, hij, hg, hi, hj⟩ :=
    flatMap_shardPass_indices shardFiles sf h
  have hgl : g < (shardFiles.flatMap shardPassEvents).length :=
    (List.getElem?_eq_some_iff.mp hg).1
  have hil : i < (shardFiles.flatMap shardPassEvents).length :=
    (List.getElem?_eq_some_iff.mp hi).1
  have hjl : j < (shardFiles.flatMap shardPassEvents).length :=
    (List.getElem?_eq_some_iff.mp hj).1
  refine ⟨g, i, j, hgi, hij, ?_, ?_, ?_⟩
  · rw [mergeShardsAndUploadTrace, List.getElem?_append_left hgl]
    exact hg
  · rw [mergeShardsAndUploadTrace, List.getElem?_append_left hil]
    exact hi
  · rw [mergeShardsAndUploadTrace, List.getElem?_append_left hjl]
    exact hj

/-- Witness for C2 (amended): the concrete single-shard merge pass, with
the read at index 1, the removal at index 2 and the main-file write at
index 3. -/
theorem mergeShardsAndUpload_remove_between_read_and_write_witness :
    ({ name := 0, dayObs := 20221027, content := [] } : ShardFile Int) ∈
        [({ name := 0, dayObs := 20221027, content := [] } : ShardFile Int)] ∧
      ∃ g i j : Nat, g < i ∧ i < j ∧
        (mergeShardsAndUploadTrace
            [({ name := 0, dayObs := 20221027, content := [] } :
              ShardFile Int)])[g]? =
          some (MergeEvent.readShardFile 0) ∧
        (mergeShardsAndUploadTrace
            [({ name := 0, dayObs := 20221027, content := [] } :
              ShardFile Int)])[i]? =
          some (MergeEvent.removeShardFile 0) ∧
        (mergeShardsAndUploadTrace
            [({ name := 0, dayObs := 20221027, content := [] } :
              ShardFile Int)])[j]? =
          some (MergeEvent.writeMainFile 20221027) :=
  ⟨List.mem_cons_self _ _,
    mergeShardsAndUpload_remove_between_read_and_write
      [{ name := 0, dayObs := 20221027, content := [] }]
      { name := 0, dayObs := 20221027, content := [] }
      (List.mem_cons_self _ _)⟩

/-! ### Watcher lemmas -/

instance : IsTotal Nat (fun a b => b ≤ a) := ⟨fun a b => le_total b a⟩

instance : IsTrans Nat (fun a b => b ≤ a) :=
  ⟨fun _ _ _ hab hbc => le_trans hbc hab⟩

/-- The reverse-sorted file listing is sorted descending. -/
theorem sortDescending_sorted (files : List Nat) :
    List.Sorted (fun a b => b ≤ a) (sortDescending files) :=
  List.sorted_insertionSort _ files

/-- The reverse-sorted file listing has the same members as the listing. -/
theorem sortDescending_mem (files : List Nat) (x : Nat) :
    x ∈ sortDescending files ↔ x ∈ files :=
  (List.perm_insertionSort _ files).mem_iff

/-- Polling again while the newest file still has the previously processed
exposure id returns `None` (watchers.py lines 114-117). -/
theorem getMostRecentExpRecord_same_eq_none (files : List Nat) (e : Nat)
    (h : (sortDescending files).head? = some e) :
    getMostRecentExpRecord files (some e) = none := by
  cases hs : sortDescending files with
  | nil => rw [hs] at h; cases h
  | cons a t =>
    rw [hs] at h
    have ha : a = e := by
      simpa using h
    subst ha
    simp [getMostRecentExpRecord, hs]

/-- A record is returned only when its id differs from `previousExpId`. -/
theorem getMostRecentExpRecord_ne (files : List Nat) (prev : Option Nat)
    (e : Nat) (h : getMostRecentExpRecord files prev = some e) :
    prev ≠ some e := by
  unfold getMostRecentExpRecord at h
  cases hs : sortDescending files with
  | nil => rw [hs] at h; cases h
  | cons a t =>
    rw [hs] at h
    dsimp only at h
    by_cases hp : prev = some a
    · rw [if_pos hp] at h
      cases h
    · rw [if_neg hp] at h
      cases h
      exact hp

/-- The returned id is one of the files on disk. -/
theorem getMostRecentExpRecord_mem (files : List Nat) (prev : Option Nat)
    (e : Nat) (h : getMostRecentExpRecord files prev = some e) :
    e ∈ files := by
  unfold getMostRecentExpRecord at h
  cases hs : sortDescending files with
  | nil => rw [hs] at h; cases h
  | cons a t =>
    rw [hs] at h
    dsimp only at h
    by_cases hp : prev = some a
    · rw [if_pos hp] at h
      cases h
    · rw [if_neg hp] at h
      cases h
      exact (sortDescending_mem files e).mp
        (by rw [hs]; exact List.mem_cons_self e t)

/-- The returned id is the largest id on disk (the head of the descending
sort). -/
theorem getMostRecentExpRecord_ge (files : List Nat) (prev : Option Nat)
    (e : Nat) (h : getMostRecentExpRecord files prev = some e) :
    ∀ x ∈ files, x ≤ e := by
  intro x hx
  unfold getMostRecentExpRecord at h
  cases hs : sortDescending files with
  | nil => rw [hs] at h; cases h
  | cons a t =>
    rw [hs] at h
    dsimp only at h
    by_cases hp : prev = some a
    · rw [if_pos hp] at h
      cases h
    · rw [if_neg hp] at h
      cases h
      have hsorted : List.Sorted (fun a b => b ≤ a) (e :: t) := by
        rw [← hs]
        exact sortDescending_sorted files
      have hx' : x ∈ e :: t := by
        rw [← hs]
        exact (sortDescending_mem files x).mpr hx
      rcases List.mem_cons.mp hx' with hxa | hxt
      · exact le_of_eq hxa
      · exact List.rel_of_sorted_cons hsorted x hxt

/-- Unfolding one poll cycle at the level of callback invocations. -/
theorem invocations_runWatcher_cons (fails : Nat → Bool)
    (lastFound : Option Nat) (files : List Nat) (rest : List (List Nat)) :
    invocations (runWatcher fails lastFound (files :: rest)) =
      match getMostRecentExpRecord files lastFound with
      | none => invocations (runWatcher fails lastFound rest)
      | some e => e :: invocations (runWatcher fails (some e) rest) := by
  rw [runWatcher]
  cases hg : getMostRecentExpRecord files lastFound with
  | none => simp [watcherStep, hg, invocations]
  | some e =>
    cases hf : fails e <;> simp [watcherStep, hg, hf, invocations]

/-- The sequence of exposure ids passed to the callback does not depend on
which callback invocations raise: `lastFound` is recorded before the
callback runs, and in log-and-continue mode an exception only skips that
cycle's heartbeat. -/
theorem invocations_indep_of_failures (fails : Nat → Bool) :
    ∀ (snaps : List (List Nat)) (lastFound : Option Nat),
      invocations (runWatcher fails lastFound snaps) =
        invocations (runWatcher (fun _ => false) lastFound snaps) := by
  intro snaps
  induction snaps with
  | nil => intro lastFound; rfl
  | cons files rest ih =>
    intro lastFound
    rw [invocations_runWatcher_cons, invocations_runWatcher_cons]
    cases hg : getMostRecentExpRecord files lastFound with
    | none => dsimp only; exact ih lastFound
    | some e => dsimp only; rw [ih (some e)]

/-- The first id invoked from a given `lastFound` state differs from
`lastFound`. -/
theorem invocations_head_ne (fails : Nat → Bool) :
    ∀ (snaps : List (List Nat)) (lastFound : Option Nat) (e₀ : Nat),
      (invocations (runWatcher fails lastFound snaps)).head? = some e₀ →
        lastFound ≠ some e₀ := by
  intro snaps
  induction snaps with
  | nil =>
    intro lastFound e₀ h
    cases h
  | cons files rest ih =>
    intro lastFound e₀ h
    rw [invocations_runWatcher_cons] at h
    cases hg : getMostRecentExpRecord files lastFound with
    | none =>
      rw [hg] at h
      exact ih lastFound e₀ h
    | some e =>
      rw [hg] at h
      have he : e = e₀ := by simpa using h
      subst he
      exact getMostRecentExpRecord_ne files lastFound e hg

/-- Two consecutive callback invocations always carry different exposure
ids. -/
theorem invocations_chain_ne (fails : Nat → Bool) :
    ∀ (snaps : List (List Nat)) (lastFound : Option Nat),
      List.Chain' (fun a b => a ≠ b)
        (invocations (runWatcher fails lastFound snaps)) := by
  intro snaps
  induction snaps with
  | nil => intro lastFound; exact List.chain'_nil
  | cons files rest ih =>
    intro lastFound
    rw [invocations_runWatcher_cons]
    cases hg : getMostRecentExpRecord files lastFound with
    | none => dsimp only; exact ih lastFound
    | some e =>
      dsimp only
      refine List.chain'_cons'.mpr ⟨?_, ih (some e)⟩
      intro y hy
      have := invocations_head_ne fails rest (some e) y hy
      intro hee
      exact this (by rw [hee])

/-- When marker files only accumulate, the invoked ids strictly increase
from any already-seen id present in the first snapshot. -/
theorem invocations_chain_lt_from (fails : Nat → Bool) :
    ∀ (snaps : List (List Nat)) (e : Nat), accumulating snaps →
      (∀ s, snaps.head? = some s → e ∈ s) →
      List.Chain' (fun a b => a < b)
        (e :: invocations (runWatcher fails (some e) snaps)) := by
  intro snaps
  induction snaps with
  | nil =>
    intro e _ _
    exact List.chain'_singleton e
  | cons files rest ih =>
    intro e hacc hhead
    have hmem : e ∈ files := hhead files rfl
    have hacc' : accumulating rest := (List.chain'_cons'.mp hacc).2
    have hsub : ∀ s ∈ rest.head?, ∀ x ∈ files, x ∈ s :=
      (List.chain'_cons'.mp hacc).1
    rw [invocations_runWatcher_cons]
    cases hg : getMostRecentExpRecord files (some e) with
    | none =>
      dsimp only
      exact ih e hacc' (fun s hs => hsub s hs e hmem)
    | some e' =>
      dsimp only
      have hne := getMostRecentExpRecord_ne files (some e) e' hg
      have hmem' : e' ∈ files := getMostRecentExpRecord_mem files (some e) e' hg
      have hle : e ≤ e' := getMostRecentExpRecord_ge files (some e) e' hg e hmem
      have hlt : e < e' := lt_of_le_of_ne hle (by intro hee; exact hne (by rw [hee]))
      exact List.chain'_cons.mpr
        ⟨hlt, ih e' hacc' (fun s hs => hsub s hs e' hmem')⟩

/-- When marker files only accumulate, a full watcher run invokes a
strictly increasing sequence of ids. -/
theorem invocations_chain_lt (fails : Nat → Bool) :
    ∀ snaps : List (List Nat), accumulating snaps →
      List.Chain' (fun a b => a < b)
        (invocations (runWatcher fails none snaps)) := by
  intro snaps
  induction snaps with
  | nil => intro _; exact List.chain'_nil
  | cons files rest ih =>
    intro hacc
    have hacc' : accumulating rest := (List.chain'_cons'.mp hacc).2
    have hsub : ∀ s ∈ rest.head?, ∀ x ∈ files, x ∈ s :=
      (List.chain'_cons'.mp hacc).1
    rw [invocations_runWatcher_cons]
    cases hg : getMostRecentExpRecord files none with
    | none => dsimp only; exact ih hacc'
    | some e =>
      dsimp only
      have hmem : e ∈ files := getMostRecentExpRecord_mem files none e hg
      exact invocations_chain_lt_from fails rest e hacc'
        (fun s hs => hsub s hs e hmem)

/-- When marker files only accumulate, no id is invoked twice. -/
theorem invocations_count_le_one (fails : Nat → Bool)
    (snaps : List (List Nat)) (hacc : accumulating snaps) (e : Nat) :
    (invocations (runWatcher fails none snaps)).count e ≤ 1 := by
  have hchain := invocations_chain_lt fails snaps hacc
  have hpair : List.Pairwise (fun a b => a < b)
      (invocations (runWatcher fails none snaps)) :=
    List.chain'_iff_pairwise.mp hchain
  have hnodup : (invocations (runWatcher fails none snaps)).Nodup :=
    hpair.imp Nat.ne_of_lt
  exact List.nodup_iff_count_le_one.mp hnodup e

/-- C3: per watcher run, the callback fires at most once per marker
generation.  (1) When the newest marker file carries the exposure id last
processed, `getMostRecentExpRecord` returns `None` and the cycle only
heartbeats and sleeps.  (2) Two consecutive callback invocations always
carry different exposure ids — the callback runs again only once a marker
with a different id is the newest.  (3) When marker files only accumulate
(as they do: the ButlerWatcher writes them and nothing deletes them), no
exposure id is ever passed to the callback twice in a run. -/
theorem fileWatcher_at_most_once_per_marker :
    (∀ (files : List Nat) (e : Nat) (fails : Nat → Bool),
        (sortDescending files).head? = some e →
          getMostRecentExpRecord files (some e) = none ∧
            watcherStep fails (some e) files =
              (some e, [WatcherEvent.heartbeat, WatcherEvent.sleepCadence])) ∧
      (∀ (fails : Nat → Bool) (lastFound : Option Nat)
          (snaps : List (List Nat)),
        List.Chain' (fun a b => a ≠ b)
          (invocations (runWatcher fails lastFound snaps))) ∧
      (∀ (fails : Nat → Bool) (snaps : List (List Nat)),
        accumulating snaps →
          ∀ e : Nat, (invocations (runWatcher fails none snaps)).count e ≤ 1) := by
  refine ⟨?_, ?_, ?_⟩
  · intro files e fails h
    have hnone := getMostRecentExpRecord_same_eq_none files e h
    exact ⟨hnone, by rw [watcherStep, hnone]⟩
  · intro fails lastFound snaps
    exact invocations_chain_ne fails snaps lastFound
  · intro fails snaps hacc e
    exact invocations_count_le_one fails snaps hacc e

/-- Witness for C3: a two-marker history where exposure id 5 appears and
stays newest; it is returned at most once, and polling again with
`previousExpId = 5` yields `None`. -/
theorem fileWatcher_at_most_once_per_marker_witness :
    ((sortDescending [3, 5]).head? = some 5 ∧
        getMostRecentExpRecord [3, 5] (some 5) = none) ∧
      accumulating [[3], [3, 5], [3, 5]] ∧
      (invocations (runWatcher (fun _ => false) none
          [[3], [3, 5], [3, 5]])).count 5 ≤ 1 := by
  have hacc : accumulating [[3], [3, 5], [3, 5]] := by
    refine List.chain'_cons.mpr ⟨?_, List.chain'_cons.mpr
      ⟨?_, List.chain'_singleton _⟩⟩ <;> decide
  exact ⟨⟨by decide,
      (fileWatcher_at_most_once_per_marker.1 [3, 5] 5 (fun _ => false)
        (by decide)).1⟩,
    hacc,
    fileWatcher_at_most_once_per_marker.2.2 (fun _ => false)
      [[3], [3, 5], [3, 5]] hacc 5⟩

/-- C10: in log-and-continue mode, the exposure ids handed to the callback
do not depend on which callback invocations raise, because `lastFound` is
recorded before the callback runs (watchers.py line 144) and `raiseIf`
swallows the exception; consequently, when marker files only accumulate, an
exposure id whose callback raised is never passed to the callback again by
the same watcher run — the failed unit is permanently skipped by the live
path. -/
theorem fileWatcher_failed_id_not_retried (fails : Nat → Bool)
    (snaps : List (List Nat)) :
    invocations (runWatcher fails none snaps) =
        invocations (runWatcher (fun _ => false) none snaps) ∧
      (accumulating snaps → ∀ e : Nat, fails e = true →
        (invocations (runWatcher fails none snaps)).count e ≤ 1) :=
  ⟨invocations_indep_of_failures fails snaps none,
    fun hacc e _ => invocations_count_le_one fails snaps hacc e⟩

/-- Witness for C10: a run in which the callback raises on exposure id 5;
the invocation sequence matches the failure-free run and id 5 is passed at
most once. -/
theorem fileWatcher_failed_id_not_retried_witness :
    invocations (runWatcher (fun n => decide (n = 5)) none
          [[3], [3, 5], [3, 5]]) =
        invocations (runWatcher (fun _ => false) none [[3], [3, 5], [3, 5]]) ∧
      (invocations (runWatcher (fun n => decide (n = 5)) none
          [[3], [3, 5], [3, 5]])).count 5 ≤ 1 := by
  have hacc : accumulating [[3], [3, 5], [3, 5]] := by
    refine List.chain'_cons.mpr ⟨?_, List.chain'_cons.mpr
      ⟨?_, List.chain'_singleton _⟩⟩ <;> decide
  exact ⟨(fileWatcher_failed_id_not_retried (fun n => decide (n = 5))
        [[3], [3, 5], [3, 5]]).1,
    (fileWatcher_failed_id_not_retried (fun n => decide (n = 5))
        [[3], [3, 5], [3, 5]]).2 hacc 5 (by decide)⟩

end RubinTV
